import Mathlib

/-!
Verification of the faery multi-format streaming decoder (Rust sources under
src/src/).  The definitions below are a shallow embedding of the decoding and
validation logic found in src/src/aedat/mod.rs, src/src/event_stream/mod.rs,
src/src/utilities.rs and src/src/lib.rs.  Machine integers are modelled as
Nat/Int with explicit two's-complement casts where the code performs `as`
conversions.
-/

namespace Faery

/-- Error type of the packet decoder (decoder::PacketError variants referenced
in src/src/aedat/mod.rs).  `missingPacketSizePfx` models the variant named
MissingPacketSizePrefix in the source. -/
inductive PacketError where
  | missingPacketSizePfx
  | emptyEventsPacket
  | xOverflow (x : Int) (width : Nat)
  | yOverflow (y : Int) (height : Nat)
  | unknownFrameFormat
  | unknownTriggerSource
deriving DecidableEq, Repr

/-- Rust `w as i16` applied to a `u16` value `w` (`0 ≤ w < 65536`), as in
`packet.stream.width as i16` (src/src/aedat/mod.rs line 154). -/
def i16OfU16 (w : Nat) : Int :=
  if w < 32768 then (w : Int) else (w : Int) - 65536

/-- Rust `x as u16` applied to an `i16` value, as in `event.x() as u16`
(src/src/aedat/mod.rs line 169). -/
def u16OfI16 (x : Int) : Nat :=
  (x % 65536).toNat

/-- An event tuple as read from the flatbuffer table: `t()`, `x()`, `y()`
return u64/i16/i16, `on()` returns bool. -/
structure AedatEvent where
  t : Nat
  x : Int
  y : Int
  on_p : Bool
deriving DecidableEq, Repr

/-- An event as written into the output record (offsets 0, 8, 10, 12 of the
numpy cell): u64, u16, u16, bool. -/
structure DecodedEvent where
  t : Nat
  x : Nat
  y : Nat
  on_p : Bool
deriving DecidableEq, Repr

/-- Validation and conversion of one event, as performed inside the loop of
the Events branch of `__next__` (src/src/aedat/mod.rs lines 145-172):
`x < 0 || x >= width as i16` yields XOverflow, then
`y < 0 || y >= height as i16` yields YOverflow, else the event is written. -/
def checkEvent (width height : Nat) (e : AedatEvent) : Except PacketError DecodedEvent :=
  if e.x < 0 ∨ i16OfU16 width ≤ e.x then
    .error (.xOverflow e.x width)
  else if e.y < 0 ∨ i16OfU16 height ≤ e.y then
    .error (.yOverflow e.y height)
  else
    .ok { t := e.t, x := u16OfI16 e.x, y := u16OfI16 e.y, on_p := e.on_p }

/-- The event loop of the Events branch of `__next__`: events are processed in
file order and the first validation failure aborts the whole packet (the
Rust loop returns the error from the enclosing function). -/
def decodeEvents (width height : Nat) : List AedatEvent → Except PacketError (List DecodedEvent)
  | [] => .ok []
  | e :: rest =>
    match checkEvent width height e with
    | .error err => .error err
    | .ok d =>
      match decodeEvents width height rest with
      | .error err => .error err
      | .ok ds => .ok (d :: ds)

/-- The parsed flatbuffer EventPacket table: its `elements()` accessor returns
an optional vector. -/
structure EventPacketTable where
  elements : Option (List AedatEvent)

/-- The Events branch of `__next__` (src/src/aedat/mod.rs lines 81-174): a
size-prefix parse failure yields MissingPacketSizePrefix, an absent
`elements` field yields EmptyEventsPacket, otherwise the event loop runs. -/
def eventsBranch (width height : Nat) (parsed : Except Unit EventPacketTable) :
    Except PacketError (List DecodedEvent) :=
  match parsed with
  | .error _ => .error .missingPacketSizePfx
  | .ok table =>
    match table.elements with
    | none => .error .emptyEventsPacket
    | some events => decodeEvents width height events

/-- Trigger source as read from the flatbuffer: the ten named variants plus a
catch-all for any other raw code (flatbuffer enums are open, the Rust match
has a `_` arm). -/
inductive TriggerSource where
  | timestampReset
  | externalSignalRisingEdge
  | externalSignalFallingEdge
  | externalSignalPulse
  | externalGeneratorRisingEdge
  | externalGeneratorFallingEdge
  | frameBegin
  | frameEnd
  | exposureBegin
  | exposureEnd
  | unknown (code : Nat)
deriving DecidableEq, Repr

/-- A trigger record as read from the flatbuffer table. -/
structure AedatTrigger where
  t : Nat
  source : TriggerSource
deriving DecidableEq, Repr

/-- A trigger as written into the output record: u64 timestamp and u8 source
code. -/
structure DecodedTrigger where
  t : Nat
  source : Nat
deriving DecidableEq, Repr

/-- The source-code mapping of the Triggers branch of `__next__`
(src/src/aedat/mod.rs lines 470-490): the ten named variants map to 0-9, any
other source yields UnknownTriggerSource. -/
def triggerSourceCode : TriggerSource → Except PacketError Nat
  | .timestampReset => .ok 0
  | .externalSignalRisingEdge => .ok 1
  | .externalSignalFallingEdge => .ok 2
  | .externalSignalPulse => .ok 3
  | .externalGeneratorRisingEdge => .ok 4
  | .externalGeneratorFallingEdge => .ok 5
  | .frameBegin => .ok 6
  | .frameEnd => .ok 7
  | .exposureBegin => .ok 8
  | .exposureEnd => .ok 9
  | .unknown _ => .error .unknownTriggerSource

/-- The trigger loop of the Triggers branch of `__next__`: triggers are
processed in file order and the first unknown source aborts the whole
batch. -/
def decodeTriggers : List AedatTrigger → Except PacketError (List DecodedTrigger)
  | [] => .ok []
  | trigger :: rest =>
    match triggerSourceCode trigger.source with
    | .error err => .error err
    | .ok code =>
      match decodeTriggers rest with
      | .error err => .error err
      | .ok ds => .ok ({ t := trigger.t, source := code } :: ds)

/-- The numpy dtype field list built for IMU packets (src/src/aedat/mod.rs
lines 279-356), as (field name, byte width) pairs: u64 is 8 bytes, f32 is 4
bytes. -/
def imuDtypeFields : List (String × Nat) :=
  [("t", 8), ("temperature", 4),
   ("accelerometer_x", 4), ("accelerometer_y", 4), ("accelerometer_z", 4),
   ("gyroscope_x", 4), ("gyroscope_y", 4), ("gyroscope_z", 4),
   ("magnetometer_x", 4), ("magnetometer_y", 4), ("magnetometer_z", 4)]

/-- The byte offsets at which the decoder writes the IMU fields into one
record cell (src/src/aedat/mod.rs lines 387-397). -/
def imuFieldOffsets : List Nat :=
  [0, 8, 12, 16, 20, 24, 28, 32, 36, 40, 44]

/-- Frame pixel format as read from the flatbuffer: the three named variants
plus a catch-all for any other raw code (the Rust match has a `_` arm that
yields UnknownFrameFormat). -/
inductive FrameFormat where
  | gray
  | bgr
  | bgra
  | unknown (code : Nat)
deriving DecidableEq, Repr

/-- Bytes per pixel for each known format (Gray is exposed as a 2-d array,
Bgr and Bgra use 3 and 4 channels, src/src/aedat/mod.rs lines 228-233). -/
def channelsOf : FrameFormat → Option Nat
  | .gray => some 1
  | .bgr => some 3
  | .bgra => some 4
  | .unknown _ => none

/-- A frame record as read from the flatbuffer table.  Pixel bytes are
modelled as an array of Nat byte values; the buffer is optional, as
`frame.pixels()` is. -/
structure Frame where
  t : Nat
  begin_t : Nat
  end_t : Nat
  exposure_begin_t : Nat
  exposure_end_t : Nat
  format : FrameFormat
  width : Nat
  height : Nat
  offset_x : Int
  offset_y : Int
  pixels : Option (Array Nat)

/-- One iteration of the channel-swap loop of the Bgr/Bgra branch
(src/src/aedat/mod.rs line 243): `pixels.swap(index * channels, index *
channels + 2)`.  Rust's Vec::swap requires both indices in bounds; the guard
makes the Lean function total and always holds in `bgrSwap` below. -/
def swapStep (channels : Nat) (pixels : Array Nat) (index : Nat) : Array Nat :=
  if h : index * channels + 2 < pixels.size then
    pixels.swap ⟨index * channels, by omega⟩ ⟨index * channels + 2, h⟩
  else
    pixels

/-- The channel-swap loop of the Bgr/Bgra branch (src/src/aedat/mod.rs lines
242-244): `for index in 0..(pixels.len() / channels)` swap the first and
third byte of pixel `index`. -/
def bgrSwap (channels : Nat) (pixels : Array Nat) : Array Nat :=
  (List.range (pixels.size / channels)).foldl (swapStep channels) pixels

/-- Errors of the frame-pixels conversion: a PacketError, or the numpy
`reshape(dimensions)?` failure when the buffer size does not match the
declared shape. -/
inductive FramePixelsError where
  | packet (e : PacketError)
  | reshape
deriving DecidableEq, Repr

/-- The Bgr/Bgra pixels conversion (src/src/aedat/mod.rs lines 237-251): a
present buffer is channel-swapped and reshaped to [height, width, channels];
an absent buffer yields a zero-filled array of that shape. -/
def decodeColorPixels (channels : Nat) (frame : Frame) :
    Except FramePixelsError (Array Nat) :=
  match frame.pixels with
  | some p =>
    let swapped := bgrSwap channels p
    if swapped.size = frame.height * frame.width * channels then .ok swapped
    else .error .reshape
  | none => .ok (Array.mkArray (frame.height * frame.width * channels) 0)

/-- The pixels part of the Frame branch of `__next__` (src/src/aedat/mod.rs
lines 210-256): Gray frames are reshaped to [height, width] (absent buffer
yields zeros of that shape), Bgr/Bgra frames are channel-swapped with 3 or 4
channels, any other format yields UnknownFrameFormat. -/
def decodeFramePixels (frame : Frame) : Except FramePixelsError (Array Nat) :=
  match frame.format with
  | .gray =>
    match frame.pixels with
    | some p =>
      if p.size = frame.height * frame.width then .ok p else .error .reshape
    | none => .ok (Array.mkArray (frame.height * frame.width) 0)
  | .bgr => decodeColorPixels 3 frame
  | .bgra => decodeColorPixels 4 frame
  | .unknown _ => .error (.packet .unknownFrameFormat)

/-- ATIS event polarity (neuromorphic_types::AtisPolarity, the four variants
matched in src/src/event_stream/mod.rs lines 276-293). -/
inductive AtisPolarity where
  | off
  | on_p
  | exposureStart
  | exposureEnd
deriving DecidableEq, Repr

/-- The pair (exposure byte, polarity byte) written at offsets 12 and 13 of an
ATIS output record (src/src/event_stream/mod.rs lines 276-293). -/
def atisPolarityBytes : AtisPolarity → Nat × Nat
  | .off => (0, 0)
  | .on_p => (0, 1)
  | .exposureStart => (1, 0)
  | .exposureEnd => (1, 1)

/-- The file-wide EVENT-STREAM type (decoder::Type, matched in
src/src/event_stream/mod.rs lines 42-47). -/
inductive EventStreamType where
  | generic
  | dvs
  | atis
  | color
deriving DecidableEq, Repr

/-- The string returned by the `event_stream_type` getter of
event_stream::Decoder (src/src/event_stream/mod.rs lines 40-49). -/
def eventStreamTypeString : EventStreamType → String
  | .generic => "generic"
  | .dvs => "dvs"
  | .atis => "atis"
  | .color => "color"

/-- The two Decoder pyclasses defined in the crate: aedat::Decoder
(src/src/aedat/mod.rs) and event_stream::Decoder
(src/src/event_stream/mod.rs). -/
inductive DecoderClass where
  | aedatDecoder
  | eventStreamDecoder
deriving DecidableEq, Repr

/-- The submodule registrations performed by the `faery` pymodule
(src/src/lib.rs lines 12-31): each block creates a named submodule and calls
`add_class::<aedat::Decoder>()` on it. -/
def faerySubmodules : List (String × DecoderClass) :=
  [("aedat", .aedatDecoder), ("dat", .aedatDecoder),
   ("event_stream", .aedatDecoder), ("raw", .aedatDecoder)]

/-- Whether a pyclass has the `event_stream_type`, `width` and `height`
getters: event_stream::Decoder declares them (src/src/event_stream/mod.rs
lines 40-59), aedat::Decoder's pymethods block does not. -/
def hasEventStreamGetters : DecoderClass → Bool
  | .aedatDecoder => false
  | .eventStreamDecoder => true

/-- One numpy dtype field descriptor, as stored by set_dtype_as_list_field: a
(name, numpy type) tuple.  The numpy type is kept as a tag string. -/
structure DtypeField where
  name : String
  numTag : String
deriving DecidableEq, Repr

/-- Model of a CPython list allocated by `PyList_New(n)`: n slots, initially
empty. -/
def pyListNew (size : Nat) : List (Option DtypeField) :=
  List.replicate size none

/-- Model of `PyList_SetItem(list, index, value)`: documented CPython
semantics store the value when `0 ≤ index < len(list)` and return -1
otherwise; the Rust caller set_dtype_as_list_field (src/src/utilities.rs
lines 30-32) turns the -1 into the message below. -/
def pyListSetItem (list : List (Option DtypeField)) (index : Nat) (field : DtypeField) :
    Except String (List (Option DtypeField)) :=
  if index < list.length then .ok (list.set index (some field))
  else .error ("PyList_SetItem failed")

/-- set_dtype_as_list_field (src/src/utilities.rs lines 3-33): builds the
(name, type) tuple and stores it at the given list index. -/
def setDtypeAsListField (list : List (Option DtypeField)) (index : Nat)
    (name numTag : String) : Except String (List (Option DtypeField)) :=
  pyListSetItem list index { name := name, numTag := numTag }

/-- The dtype list built by the Atis branch of event_stream `__next__`
(src/src/event_stream/mod.rs lines 207-242): `PyList_New(4)` followed by five
field writes at indices 0 to 4. -/
def atisDtypeAsList : Except String (List (Option DtypeField)) := do
  let list := pyListNew 4
  let list ← setDtypeAsListField list 0 "t" "u64"
  let list ← setDtypeAsListField list 1 "x" "u16"
  let list ← setDtypeAsListField list 2 "y" "u16"
  let list ← setDtypeAsListField list 3 "exposure" "bool"
  let list ← setDtypeAsListField list 4 "polarity" "bool"
  pure list

/-- The dtype list built by the Color branch of event_stream `__next__`
(src/src/event_stream/mod.rs lines 301-343): `PyList_New(4)` followed by six
field writes at indices 0 to 5. -/
def colorDtypeAsList : Except String (List (Option DtypeField)) := do
  let list := pyListNew 4
  let list ← setDtypeAsListField list 0 "t" "u64"
  let list ← setDtypeAsListField list 1 "x" "u16"
  let list ← setDtypeAsListField list 2 "y" "u16"
  let list ← setDtypeAsListField list 3 "r" "u8"
  let list ← setDtypeAsListField list 4 "g" "u8"
  let list ← setDtypeAsListField list 5 "b" "u8"
  pure list

/-- The dtype list built by the Dvs branch of event_stream `__next__`
(src/src/event_stream/mod.rs lines 137-165): `PyList_New(4)` followed by four
field writes at indices 0 to 3. -/
def dvsDtypeAsList : Except String (List (Option DtypeField)) := do
  let list := pyListNew 4
  let list ← setDtypeAsListField list 0 "t" "u64"
  let list ← setDtypeAsListField list 1 "x" "u16"
  let list ← setDtypeAsListField list 2 "y" "u16"
  let list ← setDtypeAsListField list 3 "on" "bool"
  pure list

/-- Cursor state of the decoder state machine.  The Failed state carries the
error it failed with. -/
inductive CursorState where
  | ready
  | exhausted
  | failed (e : PacketError)
deriving DecidableEq, Repr

/-- Modelled from the spec: the decoder cursor of section 4.5 (the inner
decoder.rs module, declared by `mod decoder;` in src/src/aedat/mod.rs, is not
under src/).  The cursor owns the byte source, modelled as the list of
not-yet-read blocks, and a count of file reads performed so far. -/
structure Cursor (Block Packet : Type) where
  state : CursorState
  blocks : List Block
  reads : Nat

/-- Modelled from the spec: one `next()` call of the decoder cursor (section
4.5).  Ready with no block left returns None and moves to Exhausted; Ready
with a block reads it (incrementing `reads`) and either emits a packet or
moves to Failed; Exhausted returns None without reading; Failed re-surfaces
its error. -/
def cursorNext {Block Packet : Type} (decodeBlock : Block → Except PacketError Packet)
    (cursor : Cursor Block Packet) :
    Except PacketError (Option Packet) × Cursor Block Packet :=
  match cursor.state with
  | .exhausted => (.ok none, cursor)
  | .failed e => (.error e, cursor)
  | .ready =>
    match cursor.blocks with
    | [] => (.ok none, { cursor with state := .exhausted })
    | block :: rest =>
      match decodeBlock block with
      | .ok packet =>
        (.ok (some packet), { cursor with blocks := rest, reads := cursor.reads + 1 })
      | .error e =>
        (.error e, { cursor with state := .failed e, blocks := rest, reads := cursor.reads + 1 })

/-- Helper: the i16 reading of a u16 value never exceeds the value. -/
lemma i16OfU16_le (w : Nat) : i16OfU16 w ≤ (w : Int) := by
  unfold i16OfU16; split <;> omega

/-- Helper: the i16 reading of a u16 value (below 65536) is below 32768. -/
lemma i16OfU16_lt {w : Nat} (hw : w < 65536) : i16OfU16 w < 32768 := by
  unfold i16OfU16; split <;> omega

/-- Helper: a passed per-event check implies the claimed coordinate bounds,
both on the raw i16 coordinates and on the decoded u16 coordinates. -/
lemma checkEvent_ok_bounds {width height : Nat} {e : AedatEvent} {d : DecodedEvent}
    (hw : width < 65536) (hh : height < 65536)
    (h : checkEvent width height e = .ok d) :
    0 ≤ e.x ∧ e.x < (width : Int) ∧ 0 ≤ e.y ∧ e.y < (height : Int) ∧
    d.x < width ∧ d.y < height := by
  unfold checkEvent at h
  by_cases hx : e.x < 0 ∨ i16OfU16 width ≤ e.x
  · rw [if_pos hx] at h; cases h
  · rw [if_neg hx] at h
    by_cases hy : e.y < 0 ∨ i16OfU16 height ≤ e.y
    · rw [if_pos hy] at h; cases h
    · rw [if_neg hy] at h
      cases h
      push_neg at hx hy
      obtain ⟨hx0, hx1⟩ := hx
      obtain ⟨hy0, hy1⟩ := hy
      have hwle := i16OfU16_le width
      have hwlt := i16OfU16_lt hw
      have hhle := i16OfU16_le height
      have hhlt := i16OfU16_lt hh
      have hcx : (u16OfI16 e.x : Int) = e.x := by unfold u16OfI16; omega
      have hcy : (u16OfI16 e.y : Int) = e.y := by unfold u16OfI16; omega
      refine ⟨by omega, by omega, by omega, by omega, ?_, ?_⟩ <;>
        simp only [] <;> omega

/-- Helper: a failed per-event check produces exactly the overflow error
carrying that event's coordinate and the stream dimension. -/
lemma checkEvent_error_form {width height : Nat} {e : AedatEvent} {err : PacketError}
    (h : checkEvent width height e = .error err) :
    err = .xOverflow e.x width ∨ err = .yOverflow e.y height := by
  unfold checkEvent at h
  by_cases hx : e.x < 0 ∨ i16OfU16 width ≤ e.x
  · rw [if_pos hx] at h; cases h; exact Or.inl rfl
  · rw [if_neg hx] at h
    by_cases hy : e.y < 0 ∨ i16OfU16 height ≤ e.y
    · rw [if_pos hy] at h; cases h; exact Or.inr rfl
    · rw [if_neg hy] at h; cases h

/-- Helper: every event of a successfully decoded packet passed its check. -/
lemma decodeEvents_ok_checked {width height : Nat} {events : List AedatEvent}
    {out : List DecodedEvent} (h : decodeEvents width height events = .ok out) :
    ∀ e ∈ events, ∃ d, checkEvent width height e = .ok d := by
  induction events generalizing out with
  | nil => simp
  | cons e rest ih =>
    rw [decodeEvents] at h
    cases hc : checkEvent width height e with
    | error err => rw [hc] at h; cases h
    | ok d =>
      rw [hc] at h
      cases hr : decodeEvents width height rest with
      | error err => rw [hr] at h; cases h
      | ok ds =>
        intro a ha
        rcases List.mem_cons.mp ha with rfl | ha
        · exact ⟨d, hc⟩
        · exact ih hr a ha

/-- Helper: every decoded event of a successful packet arises from a checked
input event. -/
lemma decodeEvents_ok_mem {width height : Nat} {events : List AedatEvent}
    {out : List DecodedEvent} (h : decodeEvents width height events = .ok out) :
    ∀ d ∈ out, ∃ e ∈ events, checkEvent width height e = .ok d := by
  induction events generalizing out with
  | nil => rw [decodeEvents] at h; cases h; simp
  | cons e rest ih =>
    rw [decodeEvents] at h
    cases hc : checkEvent width height e with
    | error err => rw [hc] at h; cases h
    | ok d =>
      rw [hc] at h
      cases hr : decodeEvents width height rest with
      | error err => rw [hr] at h; cases h
      | ok ds =>
        rw [hr] at h
        cases h
        intro a ha
        rcases List.mem_cons.mp ha with rfl | ha
        · exact ⟨e, List.mem_cons_self .., hc⟩
        · obtain ⟨e2, he2, hch⟩ := ih hr a ha
          exact ⟨e2, List.mem_cons_of_mem _ he2, hch⟩

/-- Helper: the event loop only fails with an XOverflow or YOverflow error. -/
lemma decodeEvents_error_form {width height : Nat} {events : List AedatEvent}
    {err : PacketError} (h : decodeEvents width height events = .error err) :
    (∃ x w, err = PacketError.xOverflow x w) ∨ (∃ y hgt, err = PacketError.yOverflow y hgt) := by
  induction events with
  | nil => rw [decodeEvents] at h; cases h
  | cons e rest ih =>
    rw [decodeEvents] at h
    cases hc : checkEvent width height e with
    | error errC =>
      rw [hc] at h
      cases h
      rcases checkEvent_error_form hc with hform | hform
      · exact Or.inl ⟨e.x, width, hform⟩
      · exact Or.inr ⟨e.y, height, hform⟩
    | ok d =>
      rw [hc] at h
      cases hr : decodeEvents width height rest with
      | error errR => rw [hr] at h; cases h; exact ih hr
      | ok ds => rw [hr] at h; cases h

/-- Claim C1: every decoded event of a pixel-addressed Events packet satisfies
x < width and y < height; decoding an input containing an event that
violates these bounds yields an XOverflow or YOverflow error and no packet,
not even a partial one; a single failed check reports exactly the offending
coordinate and the stream dimension. -/
theorem c1_event_bounds (width height : Nat) (events : List AedatEvent)
    (hw : width < 65536) (hh : height < 65536) :
    (∀ out, decodeEvents width height events = .ok out →
        ∀ d ∈ out, d.x < width ∧ d.y < height) ∧
    ((∃ e ∈ events,
        e.x < 0 ∨ (width : Int) ≤ e.x ∨ e.y < 0 ∨ (height : Int) ≤ e.y) →
      ∃ err, decodeEvents width height events = .error err ∧
        ((∃ x w, err = PacketError.xOverflow x w) ∨
          (∃ y hgt, err = PacketError.yOverflow y hgt))) ∧
    (∀ e err, checkEvent width height e = .error err →
      err = .xOverflow e.x width ∨ err = .yOverflow e.y height) := by
  refine ⟨?_, ?_, fun e err h => checkEvent_error_form h⟩
  · intro out hout d hd
    obtain ⟨e, _, hch⟩ := decodeEvents_ok_mem hout d hd
    have hb := checkEvent_ok_bounds hw hh hch
    exact ⟨hb.2.2.2.2.1, hb.2.2.2.2.2⟩
  · rintro ⟨e, he, hviol⟩
    cases hres : decodeEvents width height events with
    | ok out =>
      exfalso
      obtain ⟨d, hch⟩ := decodeEvents_ok_checked hres e he
      obtain ⟨hx0, hx1, hy0, hy1, _, _⟩ := checkEvent_ok_bounds hw hh hch
      rcases hviol with hv | hv | hv | hv <;> omega
    | error err => exact ⟨err, rfl, decodeEvents_error_form hres⟩

/-- Witness for C1: a 10 by 12 stream with one event at x = 12 fails with an
overflow error. -/
theorem c1_event_bounds_witness :
    ∃ err,
      decodeEvents 10 12 [{ t := 0, x := 12, y := 0, on_p := true }] = .error err ∧
        ((∃ x w, err = PacketError.xOverflow x w) ∨
          (∃ y hgt, err = PacketError.yOverflow y hgt)) :=
  (c1_event_bounds 10 12 [{ t := 0, x := 12, y := 0, on_p := true }]
      (by norm_num) (by norm_num)).2.1
    ⟨{ t := 0, x := 12, y := 0, on_p := true }, by simp,
      Or.inr (Or.inl (by norm_num))⟩

/-- Helper: every code produced by the trigger-source mapping is below 10. -/
lemma triggerSourceCode_lt {s : TriggerSource} {code : Nat}
    (h : triggerSourceCode s = .ok code) : code < 10 := by
  cases s <;> simp [triggerSourceCode] at h <;> omega

/-- Helper: the trigger loop only fails with UnknownTriggerSource. -/
lemma decodeTriggers_error {triggers : List AedatTrigger} {err : PacketError}
    (h : decodeTriggers triggers = .error err) : err = .unknownTriggerSource := by
  induction triggers with
  | nil => simp [decodeTriggers] at h
  | cons trigger rest ih =>
    rw [decodeTriggers] at h
    cases hs : triggerSourceCode trigger.source with
    | error e =>
      rw [hs] at h
      cases htrig : trigger.source <;> simp [triggerSourceCode] at hs <;> simp_all
    | ok code =>
      rw [hs] at h
      cases hr : decodeTriggers rest with
      | error e => rw [hr] at h; cases h; exact ih hr
      | ok ds => rw [hr] at h; cases h

/-- Helper: a successful trigger batch means every source was known. -/
lemma decodeTriggers_ok_no_unknown {triggers : List AedatTrigger} {out : List DecodedTrigger}
    (h : decodeTriggers triggers = .ok out) :
    ∀ trigger ∈ triggers, ∀ code, trigger.source ≠ .unknown code := by
  induction triggers generalizing out with
  | nil => simp
  | cons trigger rest ih =>
    rw [decodeTriggers] at h
    cases hs : triggerSourceCode trigger.source with
    | error e => rw [hs] at h; cases h
    | ok code =>
      rw [hs] at h
      cases hr : decodeTriggers rest with
      | error e => rw [hr] at h; cases h
      | ok ds =>
        intro t ht c
        rcases List.mem_cons.mp ht with rfl | ht
        · intro hcon
          rw [hcon] at hs
          simp [triggerSourceCode] at hs
        · exact ih hr t ht c

/-- Helper: every decoded trigger of a successful batch has a code below 10. -/
lemma decodeTriggers_ok_lt {triggers : List AedatTrigger} {out : List DecodedTrigger}
    (h : decodeTriggers triggers = .ok out) : ∀ d ∈ out, d.source < 10 := by
  induction triggers generalizing out with
  | nil => rw [decodeTriggers] at h; cases h; simp
  | cons trigger rest ih =>
    rw [decodeTriggers] at h
    cases hs : triggerSourceCode trigger.source with
    | error e => rw [hs] at h; cases h
    | ok code =>
      rw [hs] at h
      cases hr : decodeTriggers rest with
      | error e => rw [hr] at h; cases h
      | ok ds =>
        rw [hr] at h
        cases h
        intro d hd
        rcases List.mem_cons.mp hd with rfl | hd
        · exact triggerSourceCode_lt hs
        · exact ih hr d hd

/-- Claim C4: every trigger source maps to one of the ten enumerated codes 0-9
(TimestampReset = 0 through ExposureEnd = 9); a batch containing a source
outside the enumeration fails as a whole with UnknownTriggerSource, so no
trigger of the batch, even one preceding the bad record, is returned. -/
theorem c4_trigger_source_codes (triggers : List AedatTrigger) :
    (∀ out, decodeTriggers triggers = .ok out → ∀ d ∈ out, d.source < 10) ∧
    (triggerSourceCode .timestampReset = .ok 0 ∧
      triggerSourceCode .externalSignalRisingEdge = .ok 1 ∧
      triggerSourceCode .externalSignalFallingEdge = .ok 2 ∧
      triggerSourceCode .externalSignalPulse = .ok 3 ∧
      triggerSourceCode .externalGeneratorRisingEdge = .ok 4 ∧
      triggerSourceCode .externalGeneratorFallingEdge = .ok 5 ∧
      triggerSourceCode .frameBegin = .ok 6 ∧
      triggerSourceCode .frameEnd = .ok 7 ∧
      triggerSourceCode .exposureBegin = .ok 8 ∧
      triggerSourceCode .exposureEnd = .ok 9) ∧
    ((∃ trigger ∈ triggers, ∃ code, trigger.source = .unknown code) →
      decodeTriggers triggers = .error .unknownTriggerSource) := by
  refine ⟨fun out h => decodeTriggers_ok_lt h,
    ⟨rfl, rfl, rfl, rfl, rfl, rfl, rfl, rfl, rfl, rfl⟩, ?_⟩
  rintro ⟨trigger, htrig, code, hcode⟩
  cases hres : decodeTriggers triggers with
  | ok out => exact absurd hcode (decodeTriggers_ok_no_unknown hres trigger htrig code)
  | error err => rw [decodeTriggers_error hres]

/-- Witness for C4: a batch with a valid leading trigger and a source code
outside the enumeration fails as a whole. -/
theorem c4_trigger_source_codes_witness :
    decodeTriggers
        [{ t := 0, source := .timestampReset }, { t := 1, source := .unknown 11 }] =
      .error .unknownTriggerSource :=
  (c4_trigger_source_codes _).2.2
    ⟨{ t := 1, source := .unknown 11 }, by simp, 11, rfl⟩

/-- Claim C5: an Events block whose embedded elements field is absent yields
the EmptyEventsPacket error, while a present-but-empty vector yields a
zero-length event batch. -/
theorem c5_absent_elements (width height : Nat) :
    eventsBranch width height (.ok { elements := none }) = .error .emptyEventsPacket ∧
    eventsBranch width height (.ok { elements := some [] }) = .ok [] :=
  ⟨rfl, rfl⟩

/-- Counterexample for C6: the declared IMU field widths sum to 48 bytes, not
44 as claimed. -/
theorem c6_imu_44_counterexample : (imuDtypeFields.map Prod.snd).sum ≠ 44 := by
  decide

/-- Claim C6 (amended): every decoded IMU sample has fields t (u64, 8 bytes)
and temperature, accelerometer xyz, gyroscope xyz, magnetometer xyz (f32, 4
bytes each), a fixed 48-byte logical shape; the write offsets used by the
decoder equal the running sums of the field widths. -/
theorem c6_imu_layout :
    imuDtypeFields.map Prod.fst =
      ["t", "temperature", "accelerometer_x", "accelerometer_y", "accelerometer_z",
       "gyroscope_x", "gyroscope_y", "gyroscope_z",
       "magnetometer_x", "magnetometer_y", "magnetometer_z"] ∧
    (imuDtypeFields.map Prod.snd).sum = 48 ∧
    imuFieldOffsets =
      (List.range imuDtypeFields.length).map
        (fun k => ((imuDtypeFields.take k).map Prod.snd).sum) := by
  refine ⟨rfl, by decide, by decide⟩

/-- Claim C7 (code bug): src/src/lib.rs registers aedat::Decoder, not
event_stream::Decoder, as the Decoder class of the event_stream submodule;
aedat::Decoder has no event_stream_type, width or height getters, while
event_stream::Decoder has them and its event_stream_type getter returns one
of generic, dvs, atis, color. -/
theorem c7_event_stream_submodule_class :
    faerySubmodules.lookup ("event_stream") = some .aedatDecoder ∧
    hasEventStreamGetters .aedatDecoder = false ∧
    hasEventStreamGetters .eventStreamDecoder = true ∧
    ∀ t, eventStreamTypeString t ∈ ["generic", "dvs", "atis", "color"] := by
  refine ⟨by decide, rfl, rfl, ?_⟩
  intro t
  cases t <;> decide

/-- Claim C8: the ATIS polarity is exposed as two bytes, the exposure flag at
offset 12 and the polarity value at offset 13: Off is (0, 0), On is (0, 1),
ExposureStart is (1, 0) and ExposureEnd is (1, 1). -/
theorem c8_atis_polarity_bytes :
    atisPolarityBytes .off = (0, 0) ∧ atisPolarityBytes .on_p = (0, 1) ∧
    atisPolarityBytes .exposureStart = (1, 0) ∧ atisPolarityBytes .exposureEnd = (1, 1) :=
  ⟨rfl, rfl, rfl, rfl⟩

/-- Claim C9: once next() has returned None the cursor is exhausted and
terminal: the subsequent call returns None again with the cursor unchanged,
and the read count never moved, so the file is not re-read. -/
theorem c9_exhausted_terminal {Block Packet : Type}
    (decodeBlock : Block → Except PacketError Packet)
    (c cNext : Cursor Block Packet)
    (h : cursorNext decodeBlock c = (.ok none, cNext)) :
    cursorNext decodeBlock cNext = (.ok none, cNext) ∧
    cNext.state = .exhausted ∧ cNext.reads = c.reads := by
  rcases c with ⟨state, blocks, reads⟩
  cases state with
  | exhausted =>
    simp only [cursorNext] at h
    cases h
    exact ⟨rfl, rfl, rfl⟩
  | failed e => simp [cursorNext] at h
  | ready =>
    cases blocks with
    | nil =>
      simp only [cursorNext] at h
      cases h
      exact ⟨rfl, rfl, rfl⟩
    | cons block rest =>
      simp only [cursorNext] at h
      cases hdec : decodeBlock block <;> rw [hdec] at h <;> simp at h

/-- Witness for C9: a concrete cursor that has just returned None keeps
returning None without reading. -/
theorem c9_exhausted_terminal_witness :
    cursorNext (fun b : Nat => (.ok b : Except PacketError Nat))
        { state := .exhausted, blocks := [], reads := 0 } =
      (.ok none, { state := .exhausted, blocks := [], reads := 0 }) ∧
    ({ state := .exhausted, blocks := [], reads := 0 } : Cursor Nat Nat).state =
      .exhausted ∧
    ({ state := .exhausted, blocks := [], reads := 0 } : Cursor Nat Nat).reads =
      ({ state := .ready, blocks := [], reads := 0 } : Cursor Nat Nat).reads :=
  c9_exhausted_terminal (fun b => .ok b)
    { state := .ready, blocks := [], reads := 0 }
    { state := .exhausted, blocks := [], reads := 0 } rfl

/-- Claim C10: the Atis and Color branches of the event_stream conversion
allocate the dtype list with exactly 4 slots but write 5 respectively 6
fields, so the write at index 4 is out of bounds and the conversion reaches
the PyList_SetItem panic instead of producing a descriptor list; the Dvs
branch, writing 4 fields, succeeds. -/
theorem c10_atis_color_dtype_out_of_bounds :
    (pyListNew 4).length = 4 ∧
    atisDtypeAsList = .error ("PyList_SetItem failed") ∧
    colorDtypeAsList = .error ("PyList_SetItem failed") ∧
    (∃ fields, dvsDtypeAsList = .ok fields) :=
  ⟨rfl, rfl, rfl, ⟨_, rfl⟩⟩

/-- Claim C3: a frame record with an absent pixel buffer decodes to a
zero-filled buffer of exactly width times height times channels bytes, with
1, 3 or 4 channels for Gray, Bgr, Bgra; the pixels are never absent at the
packet level. -/
theorem c3_absent_pixels_zero_filled (frame : Frame) (channels : Nat)
    (hpix : frame.pixels = none) (hch : channelsOf frame.format = some channels) :
    ∃ buffer, decodeFramePixels frame = .ok buffer ∧
      buffer.size = frame.width * frame.height * channels ∧
      ∀ i, i < buffer.size → buffer[i]! = 0 := by
  have hzero : ∀ n i, i < (Array.mkArray n (0 : Nat)).size →
      (Array.mkArray n (0 : Nat))[i]! = 0 := by
    intro n i hi
    rw [getElem!_pos (Array.mkArray n (0 : Nat)) i hi]
    simp
  cases hfmt : frame.format with
  | gray =>
    rw [hfmt] at hch
    simp only [channelsOf, Option.some.injEq] at hch
    subst hch
    refine ⟨Array.mkArray (frame.height * frame.width) 0, ?_, ?_, hzero _⟩
    · simp [decodeFramePixels, hfmt, hpix]
    · simp [Nat.mul_comm frame.height frame.width]
  | bgr =>
    rw [hfmt] at hch
    simp only [channelsOf, Option.some.injEq] at hch
    subst hch
    refine ⟨Array.mkArray (frame.height * frame.width * 3) 0, ?_, ?_, hzero _⟩
    · simp [decodeFramePixels, decodeColorPixels, hfmt, hpix]
    · simp [Nat.mul_comm frame.height frame.width]
  | bgra =>
    rw [hfmt] at hch
    simp only [channelsOf, Option.some.injEq] at hch
    subst hch
    refine ⟨Array.mkArray (frame.height * frame.width * 4) 0, ?_, ?_, hzero _⟩
    · simp [decodeFramePixels, decodeColorPixels, hfmt, hpix]
    · simp [Nat.mul_comm frame.height frame.width]
  | unknown code =>
    rw [hfmt] at hch
    simp [channelsOf] at hch

/-- Helper: one swap step preserves the buffer size. -/
lemma swapStep_size (c : Nat) (p : Array Nat) (i : Nat) :
    (swapStep c p i).size = p.size := by
  unfold swapStep; split <;> simp

/-- Helper: the swap loop preserves the buffer size. -/
lemma foldl_swapStep_size (c : Nat) (l : List Nat) (p : Array Nat) :
    (l.foldl (swapStep c) p).size = p.size := by
  induction l generalizing p with
  | nil => rfl
  | cons i rest ih => rw [List.foldl_cons, ih, swapStep_size]

/-- Helper: the channel swap preserves the buffer size. -/
lemma bgrSwap_size (c : Nat) (p : Array Nat) : (bgrSwap c p).size = p.size :=
  foldl_swapStep_size c (List.range (p.size / c)) p

/-- Helper: in-bounds bang indexing agrees with checked indexing. -/
lemma array_getElem!_lt (a : Array Nat) (i : Nat) (h : i < a.size) : a[i]! = a[i] :=
  getElem!_pos a i h

/-- Helper: pointwise description of one in-bounds swap step. -/
lemma getElem!_swapStep (c : Nat) (p : Array Nat) (i : Nat)
    (hin : i * c + 2 < p.size) (j : Nat) :
    (swapStep c p i)[j]! =
      if j = i * c then p[i * c + 2]! else if j = i * c + 2 then p[i * c]! else p[j]! := by
  unfold swapStep
  rw [dif_pos hin]
  by_cases hj : j < p.size
  · have hsw : j < (p.swap ⟨i * c, by omega⟩ ⟨i * c + 2, hin⟩).size := by simpa using hj
    rw [array_getElem!_lt _ _ hsw, Array.getElem_swap]
    split_ifs with h1 h2 <;> try simp_all [array_getElem!_lt]
    rw [array_getElem!_lt p (i * c) (by omega)]
  · have hsz : ¬ j < (p.swap ⟨i * c, by omega⟩ ⟨i * c + 2, hin⟩).size := by simpa using hj
    have h1 : ¬ j = i * c := by omega
    have h2 : ¬ j = i * c + 2 := by omega
    rw [if_neg h1, if_neg h2,
      getElem!_neg (p.swap ⟨i * c, by omega⟩ ⟨i * c + 2, hin⟩) j hsz,
      getElem!_neg p j hj]

/-- Helper: pointwise description of the swap loop over the first n pixels of
a 3-channel buffer. -/
lemma getElem!_foldl_swapStep3 (p : Array Nat) :
    ∀ n, n * 3 ≤ p.size → ∀ j,
      ((List.range n).foldl (swapStep 3) p)[j]! =
        if j / 3 < n ∧ j % 3 = 0 then p[j + 2]!
        else if j / 3 < n ∧ j % 3 = 2 then p[j - 2]! else p[j]! := by
  intro n
  induction n with
  | zero => intro _ j; simp
  | succ m ih =>
    intro hn j
    rw [List.range_succ, List.foldl_append, List.foldl_cons, List.foldl_nil]
    have hm : m * 3 ≤ p.size := by omega
    have hq := foldl_swapStep_size 3 (List.range m) p
    have hin : m * 3 + 2 < ((List.range m).foldl (swapStep 3) p).size := by omega
    rw [getElem!_swapStep 3 _ m hin]
    simp only [ih hm]
    split_ifs <;> first
      | rfl
      | omega
      | (exfalso; omega)
      | (congr 1; omega)

/-- Helper: pointwise description of the full 3-channel swap. -/
lemma getElem!_bgrSwap3 (p : Array Nat) (j : Nat) :
    (bgrSwap 3 p)[j]! =
      if j / 3 < p.size / 3 ∧ j % 3 = 0 then p[j + 2]!
      else if j / 3 < p.size / 3 ∧ j % 3 = 2 then p[j - 2]! else p[j]! :=
  getElem!_foldl_swapStep3 p (p.size / 3) (Nat.div_mul_le_self p.size 3) j

/-- Helper: the 3-channel swap is an involution. -/
lemma bgrSwap3_involution (p : Array Nat) : bgrSwap 3 (bgrSwap 3 p) = p := by
  apply Array.ext
  · rw [bgrSwap_size, bgrSwap_size]
  · intro j hj1 hj2
    rw [← array_getElem!_lt _ _ hj1, ← array_getElem!_lt _ _ hj2]
    rw [getElem!_bgrSwap3]
    simp only [bgrSwap_size, getElem!_bgrSwap3]
    split_ifs <;> first
      | rfl
      | omega
      | (exfalso; omega)
      | (congr 1; omega)

/-- Helper: pointwise description of the swap loop over the first n pixels of
a 4-channel buffer. -/
lemma getElem!_foldl_swapStep4 (p : Array Nat) :
    ∀ n, n * 4 ≤ p.size → ∀ j,
      ((List.range n).foldl (swapStep 4) p)[j]! =
        if j / 4 < n ∧ j % 4 = 0 then p[j + 2]!
        else if j / 4 < n ∧ j % 4 = 2 then p[j - 2]! else p[j]! := by
  intro n
  induction n with
  | zero => intro _ j; simp
  | succ m ih =>
    intro hn j
    rw [List.range_succ, List.foldl_append, List.foldl_cons, List.foldl_nil]
    have hm : m * 4 ≤ p.size := by omega
    have hq := foldl_swapStep_size 4 (List.range m) p
    have hin : m * 4 + 2 < ((List.range m).foldl (swapStep 4) p).size := by omega
    rw [getElem!_swapStep 4 _ m hin]
    simp only [ih hm]
    split_ifs <;> first
      | rfl
      | omega
      | (exfalso; omega)
      | (congr 1; omega)

/-- Helper: pointwise description of the full 4-channel swap. -/
lemma getElem!_bgrSwap4 (p : Array Nat) (j : Nat) :
    (bgrSwap 4 p)[j]! =
      if j / 4 < p.size / 4 ∧ j % 4 = 0 then p[j + 2]!
      else if j / 4 < p.size / 4 ∧ j % 4 = 2 then p[j - 2]! else p[j]! :=
  getElem!_foldl_swapStep4 p (p.size / 4) (Nat.div_mul_le_self p.size 4) j

/-- Helper: the 4-channel swap is an involution. -/
lemma bgrSwap4_involution (p : Array Nat) : bgrSwap 4 (bgrSwap 4 p) = p := by
  apply Array.ext
  · rw [bgrSwap_size, bgrSwap_size]
  · intro j hj1 hj2
    rw [← array_getElem!_lt _ _ hj1, ← array_getElem!_lt _ _ hj2]
    rw [getElem!_bgrSwap4]
    simp only [bgrSwap_size, getElem!_bgrSwap4]
    split_ifs <;> first
      | rfl
      | omega
      | (exfalso; omega)
      | (congr 1; omega)

/-- Claim C2: decoding a valid Bgr or Bgra frame with a present pixel buffer
swaps the first and third channel of every pixel and leaves the other
channels unchanged, and the swap is an involution: swapping the red and blue
channels of the decoded buffer reproduces the original on-disk bytes. -/
theorem c2_bgr_swap_involution (frame : Frame) (channels : Nat) (p q : Array Nat)
    (hfmt : frame.format = .bgr ∨ frame.format = .bgra)
    (hch : channelsOf frame.format = some channels)
    (hpix : frame.pixels = some p)
    (hsize : p.size = frame.width * frame.height * channels)
    (hq : decodeFramePixels frame = .ok q) :
    q = bgrSwap channels p ∧ bgrSwap channels q = p ∧
    ∀ i j, i < frame.width * frame.height → j < channels →
      q[i * channels + j]! =
        if j = 0 then p[i * channels + 2]!
        else if j = 2 then p[i * channels]!
        else p[i * channels + j]! := by
  rcases hfmt with hfmt | hfmt
  · rw [hfmt] at hch
    simp only [channelsOf, Option.some.injEq] at hch
    subst hch
    simp only [decodeFramePixels, hfmt, decodeColorPixels, hpix] at hq
    have hcond : (bgrSwap 3 p).size = frame.height * frame.width * 3 := by
      rw [bgrSwap_size, hsize]; ring
    rw [if_pos hcond] at hq
    cases hq
    refine ⟨rfl, bgrSwap3_involution p, ?_⟩
    intro i j hi hj
    rw [getElem!_bgrSwap3]
    have hsz3 : p.size / 3 = frame.width * frame.height := by
      rw [hsize]; omega
    split_ifs <;> first
      | rfl
      | omega
      | (exfalso; omega)
      | (congr 1; omega)
  · rw [hfmt] at hch
    simp only [channelsOf, Option.some.injEq] at hch
    subst hch
    simp only [decodeFramePixels, hfmt, decodeColorPixels, hpix] at hq
    have hcond : (bgrSwap 4 p).size = frame.height * frame.width * 4 := by
      rw [bgrSwap_size, hsize]; ring
    rw [if_pos hcond] at hq
    cases hq
    refine ⟨rfl, bgrSwap4_involution p, ?_⟩
    intro i j hi hj
    rw [getElem!_bgrSwap4]
    have hsz4 : p.size / 4 = frame.width * frame.height := by
      rw [hsize]; omega
    split_ifs <;> first
      | rfl
      | omega
      | (exfalso; omega)
      | (congr 1; omega)

/-- Witness for C2: a 1 by 1 Bgr frame with bytes 1, 2, 3 decodes to 3, 2, 1
and swapping again restores the original bytes. -/
theorem c2_bgr_swap_involution_witness :
    (#[3, 2, 1] : Array Nat) = bgrSwap 3 #[1, 2, 3] ∧
    bgrSwap 3 #[3, 2, 1] = #[1, 2, 3] :=
  ⟨(c2_bgr_swap_involution
      { t := 0, begin_t := 0, end_t := 0, exposure_begin_t := 0,
        exposure_end_t := 0, format := .bgr, width := 1, height := 1,
        offset_x := 0, offset_y := 0, pixels := some #[1, 2, 3] }
      3 #[1, 2, 3] #[3, 2, 1] (Or.inl rfl) rfl rfl rfl rfl).1,
   (c2_bgr_swap_involution
      { t := 0, begin_t := 0, end_t := 0, exposure_begin_t := 0,
        exposure_end_t := 0, format := .bgr, width := 1, height := 1,
        offset_x := 0, offset_y := 0, pixels := some #[1, 2, 3] }
      3 #[1, 2, 3] #[3, 2, 1] (Or.inl rfl) rfl rfl rfl rfl).2.1⟩

/-- Witness for C3: a 2 by 1 Bgr frame without pixels decodes to six zero
bytes. -/
theorem c3_absent_pixels_zero_filled_witness :
    ∃ buffer,
      decodeFramePixels
          { t := 0, begin_t := 0, end_t := 0, exposure_begin_t := 0,
            exposure_end_t := 0, format := .bgr, width := 2, height := 1,
            offset_x := 0, offset_y := 0, pixels := none } = .ok buffer ∧
        buffer.size = 2 * 1 * 3 ∧ ∀ i, i < buffer.size → buffer[i]! = 0 :=
  c3_absent_pixels_zero_filled _ 3 rfl rfl

end Faery
